import Mathlib

/-!
# Shallow embedding of the shopmind recommendation service core

This file models `src/app/services/recommendation_service.py` of the
`shopmind-recommendation-service` repository: the signal-fusion algorithm
(`_get_user_vector_from_behaviors`, `_compute_user_vector`), the retrieval
pipeline (`_vector_search`), the orchestrator (`recommend`,
`_personalized_recommend_with_cache`), the semantic search
(`search_products`) and the item-similarity lookup (`get_similar_products`).

External ports (Redis cache, user service, product service, embedding
provider, Milvus collection) are modelled by an `Env` record holding the
outcome of each port call; a call that the Python client re-raises is an
`Except Unit` value, while client methods that swallow their own exceptions
(`redis_client.get_user_vector` / `set_user_vector`,
`user_service_client.get_search_keywords` / `get_purchased_products`)
are modelled as plain values.  Floats are modelled by `ℚ`.
-/

namespace ShopMind

/-- An embedding vector (`list[float]` / `np.ndarray`). -/
abbrev Vec := List ℚ

/-- Componentwise vector addition (numpy `+` on equal-dimension vectors). -/
def vadd (x y : Vec) : Vec := List.zipWith (· + ·) x y

/-- Scalar multiplication (numpy `vector * c`). -/
def smul (c : ℚ) (x : Vec) : Vec := x.map (c * ·)

/-- Division of a vector by a scalar (numpy `vector / c`). -/
def vdiv (x : Vec) (c : ℚ) : Vec := x.map (· / c)

/-- `np.sum(vs, axis=0)` over a list of vectors. -/
def vsum : List Vec → Vec
  | [] => []
  | v :: vs => vs.foldl vadd v

/-- `UserBehaviorResponseDTO`, restricted to the field the fusion algorithm
reads. `target_id` is `Optional[int]` in `user_service_schema.py`. -/
structure Behavior where
  target_id : Option Int
  deriving DecidableEq, Repr

/-- `if behavior.target_id: product_id = int(behavior.target_id)` — the Python
truthiness test skips a null and also a zero target id. -/
def targetPid (b : Behavior) : Option Int :=
  match b.target_id with
  | none => none
  | some n => if n = 0 then none else some n

/-- The grouped-behavior map `grouped_behaviors : dict[str, list]`, as an
association list with (dict-like) unique keys; the first binding wins. -/
abbrev GroupedBehaviors := List (String × List Behavior)

/-- Python `grouped_behaviors.get(bt, [])`. -/
def lookupGB (gb : GroupedBehaviors) (bt : String) : List Behavior :=
  match gb.find? (fun p => p.1 == bt) with
  | some p => p.2
  | none => []

/-- `BEHAVIOR_TYPE_SURPORTED` (lines 22). -/
def BEHAVIOR_TYPE_SURPORTED : List String :=
  ["purchase", "add_cart", "like", "share", "view"]

/-- `BEHAVIOR_WEIGHTS.get(behavior_type, 1.0)` (lines 24-31, 430). -/
def behaviorWeight : String → ℚ
  | "purchase" => 3
  | "add_cart" => 5/2
  | "like" => 2
  | "share" => 3/2
  | "view" => 1
  | _ => 1

/-- The nested loop of `_get_user_vector_from_behaviors` (lines 416-434):
the `(behavior_type, behavior)` pairs in iteration order over the supported
behavior types. -/
def behaviorPairs (gb : GroupedBehaviors) : List (String × Behavior) :=
  BEHAVIOR_TYPE_SURPORTED.flatMap (fun bt => (lookupGB gb bt).map (fun b => (bt, b)))

/-- `behavior_product_map[p]`, read off as a function of the product id: the
list of weights recorded for product `p`, in insertion order (the dict maps
`p` to its `(behavior_type, weight)` pairs; only the weights are consumed). -/
def productWeights (gb : GroupedBehaviors) (p : Int) : List ℚ :=
  (behaviorPairs gb).filterMap
    (fun q => if targetPid q.2 = some p then some (behaviorWeight q.1) else none)

/-- First-seen deduplication with an explicit `seen` accumulator — the
`if pid not in seen: append; add` idiom used throughout the service. -/
def dedupFirstAux {α : Type} [DecidableEq α] (seen : List α) : List α → List α
  | [] => []
  | a :: as =>
    if a ∈ seen then dedupFirstAux seen as
    else a :: dedupFirstAux (a :: seen) as

/-- First-seen deduplication of a list. -/
def dedupFirst {α : Type} [DecidableEq α] (l : List α) : List α :=
  dedupFirstAux [] l

/-- `all_product_ids` of `_get_user_vector_from_behaviors` (lines 396, 423):
the referenced product ids.  The Python value is a set; we keep the canonical
first-seen order of the iteration that fills it (the order is irrelevant
downstream, because the query-result rows fix the traversal order). -/
def allProductIds (gb : GroupedBehaviors) : List Int :=
  dedupFirst ((behaviorPairs gb).filterMap (fun q => targetPid q.2))

/-- Python `max` over a non-empty list of weights (line 475); `0` on `[]`,
a case the source never reaches. -/
def listMax : List ℚ → ℚ
  | [] => 0
  | w :: ws => ws.foldl max w

/-- The `product_embeddings` dict build (lines 465-469): keep the first
embedding row per product id, in insertion order. -/
def firstSeenRowsAux (seen : List Int) : List (Int × Vec) → List (Int × Vec)
  | [] => []
  | r :: rs =>
    if r.1 ∈ seen then firstSeenRowsAux seen rs
    else r :: firstSeenRowsAux (r.1 :: seen) rs

/-- The deduplicated query-result rows (`product_embeddings.items()`). -/
def firstSeenRows (rows : List (Int × Vec)) : List (Int × Vec) :=
  firstSeenRowsAux [] rows

/-- Lines 461-493 of `_get_user_vector_from_behaviors`: for every queried row
whose product id is in `behavior_product_map`, weight its embedding by the
maximum recorded weight, then divide the componentwise sum by the total
weight. -/
def behaviorVectorOfRows (gb : GroupedBehaviors) (rows : List (Int × Vec)) : Option Vec :=
  let contrib := (firstSeenRows rows).filter (fun r => !(productWeights gb r.1).isEmpty)
  let weighted := contrib.map (fun r => smul (listMax (productWeights gb r.1)) r.2)
  let total : ℚ := (contrib.map (fun r => listMax (productWeights gb r.1))).sum
  if weighted = [] ∨ total = 0 then none
  else some (vdiv (vsum weighted) total)

/-- Modelled from the spec: behavior type `bt` "touched" product `p`. -/
def touches (gb : GroupedBehaviors) (bt : String) (p : Int) : Bool :=
  (lookupGB gb bt).any (fun b => targetPid b == some p)

/-- Modelled from the spec: the per-product fusion weight is the **maximum**
(not the sum) of the behavior-type weights among the types that touched the
product. -/
def specMaxWeight (gb : GroupedBehaviors) (p : Int) : ℚ :=
  listMax ((BEHAVIOR_TYPE_SURPORTED.filter (fun bt => touches gb bt p)).map behaviorWeight)

/-- Modelled from the spec: `Σ(embedding·max_weight) / Σ(max_weight)` over the
distinct referenced product ids whose embeddings were found, taking each
product's first-found embedding in row order. -/
def behaviorVectorSpec (gb : GroupedBehaviors) (rows : List (Int × Vec)) : Option Vec :=
  let found := (firstSeenRows rows).filter
    (fun r => BEHAVIOR_TYPE_SURPORTED.any (fun bt => touches gb bt r.1))
  if found = [] then none
  else
    let wsum : ℚ := (found.map (fun r => specMaxWeight gb r.1)).sum
    if wsum = 0 then none
    else some (vdiv (vsum (found.map (fun r => smul (specMaxWeight gb r.1) r.2))) wsum)

/-- `VECTOR_FUSION_WEIGHTS` fusion, lines 321-354 of `_compute_user_vector`:
blend the behavior and interest vectors with the fixed 0.6/0.4 weights when
both exist, else keep the one that exists; then `np.mean([base, search])`
when a search vector also exists. -/
def fuseVectors (behavior_vector interest_vector search_vector : Option Vec) : Option Vec :=
  let base_vector : Option Vec :=
    match behavior_vector, interest_vector with
    | some bv, some iv => some (vadd (smul (0.6 : ℚ) bv) (smul (0.4 : ℚ) iv))
    | some bv, none => some bv
    | none, some iv => some iv
    | none, none => none
  match base_vector, search_vector with
  | some bv, some sv => some (vdiv (vadd bv sv) 2)
  | some bv, none => some bv
  | none, some sv => some sv
  | none, none => none

/-- `ProductResponseDto`, reduced to the id used for joins (`id_int`) and an
opaque payload standing for the remaining catalog fields. -/
structure Product where
  id_int : Int
  name : String
  deriving DecidableEq, Repr

/-- A raw vector-store hit: `hit.entity.get("product_id")` and
`hit.distance` (cosine similarity). -/
structure Hit where
  product_id : Option Int
  distance : ℚ
  deriving DecidableEq, Repr

/-- `product_id = hit.entity.get("product_id"); if product_id:` — Python
truthiness: absent and zero ids are both skipped. -/
def hitPid (h : Hit) : Option Int :=
  match h.product_id with
  | none => none
  | some n => if n = 0 then none else some n

/-- The environment: one record field per external port call outcome.
`Except Unit α` models a call whose Python client re-raises failures;
client methods that catch internally and return a default
(`redis_client.get_user_vector`, `get_search_keywords`,
`get_purchased_products`, `redis_client.set_user_vector`) are plain values.
`groupedBehaviors` — Modelled from the spec: the client method
`get_user_behaviors_grouped` is absent from the sources (only its caller in
`recommendation_service.py` is present); the spec's port contract is
`SignalSource.getBehaviorsGrouped(userId, lookbackDays) ->
map(behaviorType → list[BehaviorRecord])`, an external call that may fail. -/
structure Env where
  minBehaviorCount : Nat
  minDistance : ℚ
  cachedVector : Option Vec
  interests : Except Unit (List (String × String))
  groupedBehaviors : Except Unit GroupedBehaviors
  searchKeywords : List String
  purchased : List Int
  embedQuery : String → Except Unit Vec
  milvusQuery : List Int → Except Unit (List (Int × Vec))
  milvusSearch : Vec → Except Unit (List Hit)
  getProducts : List Int → Except Unit (List Product)
  hotTry : Except Unit (List Product)
  hotHandler : Except Unit (List Product)

/-- `_get_user_vector_from_behaviors` (lines 365-500): collect the referenced
product ids, bulk-query their embeddings, and average them weighted by the
maximal behavior weight; any raised exception or empty intermediate yields
`None`. -/
def getUserVectorFromBehaviors (env : Env) (gb : GroupedBehaviors) : Option Vec :=
  if allProductIds gb = [] then none
  else
    match env.milvusQuery (allProductIds gb) with
    | .error _ => none
    | .ok [] => none
    | .ok rows => behaviorVectorOfRows gb rows

/-- `_get_user_vector_from_interests` (lines 502-542): join the interest
labels with a space and embed; a raised exception or an empty embedding
yields `None`. -/
def getUserVectorFromInterests (env : Env) (interests : List (String × String)) : Option Vec :=
  if interests = [] then none
  else
    match env.embedQuery (String.intercalate " " (interests.map Prod.snd)) with
    | .error _ => none
    | .ok [] => none
    | .ok v => some v

/-- `_get_user_vector_from_keywords` (lines 544-584): join the five most
recent keywords with a space and embed. -/
def getUserVectorFromKeywords (env : Env) (keywords : List String) : Option Vec :=
  if keywords = [] then none
  else
    match env.embedQuery (String.intercalate " " (keywords.take 5)) with
    | .error _ => none
    | .ok [] => none
    | .ok v => some v

/-- The qualifying behavior count (lines 130-134 and 296-300): the summed
length over all supported behavior types. -/
def behaviorCount (gb : GroupedBehaviors) : Nat :=
  (BEHAVIOR_TYPE_SURPORTED.map (fun bt => (lookupGB gb bt).length)).sum

/-- `_compute_user_vector` (lines 269-363): compute the three optional
sub-vectors (the behavior one gated by the configured minimum behavior
count) and fuse them. -/
def computeUserVector (env : Env) (gbOpt : Option GroupedBehaviors)
    (interestsOpt : Option (List (String × String)))
    (keywordsOpt : Option (List String)) : Option Vec :=
  let behavior_vector : Option Vec :=
    match gbOpt with
    | some gb =>
      if gb ≠ [] then
        if env.minBehaviorCount ≤ behaviorCount gb then getUserVectorFromBehaviors env gb
        else none
      else none
    | none => none
  let interest_vector : Option Vec :=
    match interestsOpt with
    | some il => if il ≠ [] then getUserVectorFromInterests env il else none
    | none => none
  let search_vector : Option Vec :=
    match keywordsOpt with
    | some kl => if kl ≠ [] then getUserVectorFromKeywords env kl else none
    | none => none
  fuseVectors behavior_vector interest_vector search_vector

/-- `_vector_search` (lines 586-641): take the raw hits up to `top_k`,
keep the truthy product ids, deduplicate first-seen; internal exceptions
yield `[]`.  There is no similarity-floor comparison on this path. -/
def vectorSearch (env : Env) (v : Vec) (top_k : Nat) : List Int :=
  match env.milvusSearch v with
  | .error _ => []
  | .ok hits => dedupFirst ((hits.take top_k).filterMap hitPid)

/-- The purchased-product filter (lines 98-102 and 246-251): when the
purchased list is non-empty, drop purchased candidates then truncate;
otherwise just truncate. -/
def filterPurchased (purchased : List Int) (candidates : List Int) (limit : Nat) : List Int :=
  if purchased ≠ [] then (candidates.filter (fun pid => !purchased.contains pid)).take limit
  else candidates.take limit

/-- The `{p.id_int: p for p in products}` dict read at key `pid`: later
entries overwrite earlier ones, so the lookup finds the last matching
product. -/
def idToProduct (products : List Product) (pid : Int) : Option Product :=
  products.reverse.find? (fun p => p.id_int == pid)

/-- `_personalized_recommend_with_cache` (lines 187-267): compute and cache
the fused vector, vector-search, filter purchased, join to catalog records
in order; every raised exception is caught and yields `[]` (the Redis write
catches internally and never raises). -/
def personalizedRecommendWithCache (env : Env) (gbOpt : Option GroupedBehaviors)
    (interestsOpt : Option (List (String × String)))
    (keywordsOpt : Option (List String)) (limit : Nat) : List Product :=
  match computeUserVector env gbOpt interestsOpt keywordsOpt with
  | none => []
  | some uv =>
    let candidates := vectorSearch env uv (limit * 3)
    if candidates = [] then []
    else
      let filtered := filterPurchased env.purchased candidates limit
      if filtered = [] then []
      else
        match env.getProducts filtered with
        | .error _ => []
        | .ok products => filtered.filterMap (idToProduct products)

/-- Which side effects a `recommend` run performed: whether the three
concurrent signal fetches were started, whether the personalized branch was
entered, and how many hot-product fetches the top-level exception handler
issued. -/
structure Trace where
  signalFetchInvoked : Bool
  personalizationAttempted : Bool
  hotHandlerCalls : Nat
  deriving DecidableEq, Repr

/-- The trace of a run that performed no side effect yet. -/
def trace0 : Trace := ⟨false, false, 0⟩

/-- `asyncio.gather` over the three signal-fetch tasks (lines 117-128),
called **without** `return_exceptions=True`: a failure of any raising task
propagates out of the gather (`get_search_keywords` catches internally and
cannot raise). -/
def signalGather (env : Env) :
    Except Unit (List (String × String) × GroupedBehaviors × List String) :=
  match env.interests with
  | .error e => .error e
  | .ok i =>
    match env.groupedBehaviors with
    | .error e => .error e
    | .ok g => .ok (i, g, env.searchKeywords)

/-- The cold-start tail of `recommend` (lines 167-176): fetch hot products;
non-empty → `cold_start`, empty → `fallback`; a raise propagates to the
top-level handler. -/
def coldStart (env : Env) (t : Trace) : Except Unit (List Product × String) × Trace :=
  match env.hotTry with
  | .error e => (.error e, t)
  | .ok ps => if ps ≠ [] then (.ok (ps, "cold_start"), t) else (.ok ([], "fallback"), t)

/-- Steps 2-4 of `recommend` (lines 114-176): gather the three signals,
decide sufficiency, attempt personalization, fall back to cold start. -/
def recommendFullFlow (env : Env) (limit : Nat) :
    Except Unit (List Product × String) × Trace :=
  match signalGather env with
  | .error e => (.error e, ⟨true, false, 0⟩)
  | .ok (interests, gb, kws) =>
    let hasInterests := interests ≠ []
    let hasEnough := env.minBehaviorCount ≤ behaviorCount gb
    let hasKws := kws ≠ []
    if hasInterests ∨ hasEnough ∨ hasKws then
      let products := personalizedRecommendWithCache env
        (if hasEnough then some gb else none)
        (if hasInterests then some interests else none)
        (if hasKws then some kws else none) limit
      if products ≠ [] then (.ok (products, "personalized"), ⟨true, true, 0⟩)
      else coldStart env ⟨true, true, 0⟩
    else coldStart env ⟨true, false, 0⟩

/-- The body of the outer `try` of `recommend` (lines 79-176): the cached
vector branch, falling through to the full flow when the cache misses or
the cached-vector retrieval produces nothing. -/
def recommendTry (env : Env) (limit : Nat) :
    Except Unit (List Product × String) × Trace :=
  match env.cachedVector with
  | none => recommendFullFlow env limit
  | some uv =>
    let candidates := vectorSearch env uv (limit * 3)
    let filtered := filterPurchased env.purchased candidates limit
    if filtered ≠ [] then
      match env.getProducts filtered with
      | .error e => (.error e, trace0)
      | .ok products =>
        let sorted := filtered.filterMap (idToProduct products)
        if sorted ≠ [] then (.ok (sorted, "personalized"), trace0)
        else recommendFullFlow env limit
    else recommendFullFlow env limit

/-- `recommend` (lines 65-185): run the guarded body; on any raised
exception, the top-level handler fetches hot products once and returns them
with strategy `fallback`, or an empty `fallback` result when that fetch
also raises.  The function never propagates an exception. -/
def recommend (env : Env) (limit : Nat) : (List Product × String) × Trace :=
  match recommendTry env limit with
  | (.ok r, t) => (r, t)
  | (.error _, t) =>
    match env.hotHandler with
    | .ok ps => ((ps, "fallback"), { t with hotHandlerCalls := t.hotHandlerCalls + 1 })
    | .error _ => (([], "fallback"), { t with hotHandlerCalls := t.hotHandlerCalls + 1 })

/-- `PageResult` of `page_result_schema.py`. -/
structure PageResult where
  data : List Product
  total : Nat
  page_number : Nat
  page_size : Nat
  deriving DecidableEq, Repr

/-- Step 4 of `search_products` (lines 701-714): walk the hits in order;
keep a hit when its product id is truthy, its distance reaches the
similarity floor and the id was not seen before. -/
def floorDedupAux (md : ℚ) (seen : List Int) : List Hit → List Int
  | [] => []
  | h :: hs =>
    match hitPid h with
    | some pid =>
      if md ≤ h.distance ∧ pid ∉ seen then pid :: floorDedupAux md (pid :: seen) hs
      else floorDedupAux md seen hs
    | none => floorDedupAux md seen hs

/-- `search_products` (lines 643-760).  The model is stated for
`page_number ≥ 1` (Python's negative-index slicing for page 0 is not
modelled).  Any raised exception is caught and yields the empty page with
`total = 0`. -/
def searchProducts (env : Env) (keyword : String) (page_number page_size : Nat) : PageResult :=
  match env.embedQuery keyword with
  | .error _ => ⟨[], 0, page_number, page_size⟩
  | .ok [] => ⟨[], 0, page_number, page_size⟩
  | .ok sv =>
    let search_limit := page_number * page_size
    match env.milvusSearch sv with
    | .error _ => ⟨[], 0, page_number, page_size⟩
    | .ok hits =>
      let all_product_ids := floorDedupAux env.minDistance [] (hits.take search_limit)
      let total := all_product_ids.length
      let start_index := (page_number - 1) * page_size
      let page_product_ids := (all_product_ids.drop start_index).take page_size
      if page_product_ids = [] then ⟨[], total, page_number, page_size⟩
      else
        match env.getProducts page_product_ids with
        | .error _ => ⟨[], 0, page_number, page_size⟩
        | .ok products =>
          ⟨page_product_ids.filterMap (idToProduct products), total, page_number, page_size⟩

/-- Step 3 of `get_similar_products` (lines 808-820): accumulate truthy,
unseen, floor-passing ids, stopping as soon as `limit` ids are collected
(the `seen` set starts with the query product itself). -/
def collectSimilar (md : ℚ) (limit : Nat) (seen acc : List Int) : List Hit → List Int
  | [] => acc
  | h :: hs =>
    match hitPid h with
    | some pid =>
      if pid ∉ seen ∧ md ≤ h.distance then
        if limit ≤ (acc ++ [pid]).length then acc ++ [pid]
        else collectSimilar md limit (pid :: seen) (acc ++ [pid]) hs
      else collectSimilar md limit seen acc hs
    | none => collectSimilar md limit seen acc hs

/-- `get_similar_products` (lines 762-840): point-query the product's own
embedding, search `limit + 10` neighbours, collect floor-passing ids
excluding the product itself, and join to catalog records in order; any
raised exception yields `[]`. -/
def getSimilarProducts (env : Env) (product_id : Int) (limit : Nat) : List Product :=
  match env.milvusQuery [product_id] with
  | .error _ => []
  | .ok [] => []
  | .ok (r :: _) =>
    match env.milvusSearch r.2 with
    | .error _ => []
    | .ok hits =>
      let similar := collectSimilar env.minDistance limit [product_id] [] (hits.take (limit + 10))
      if similar = [] then []
      else
        match env.getProducts similar with
        | .error _ => []
        | .ok products => similar.filterMap (idToProduct products)

/-! ## Concrete environments used below to exhibit runs of the model -/

/-- A run whose interests fetch raises while the other two signals are rich
enough to personalize (three view behaviors and a search keyword). -/
def envC1x : Env where
  minBehaviorCount := 3
  minDistance := 45/100
  cachedVector := none
  interests := .error ()
  groupedBehaviors := .ok [("view", [⟨some 7⟩, ⟨some 8⟩, ⟨some 9⟩])]
  searchKeywords := ["shoes"]
  purchased := []
  embedQuery := fun _ => .ok [1]
  milvusQuery := fun _ => .ok [(7, [1]), (8, [1]), (9, [1])]
  milvusSearch := fun _ => .ok [⟨some 7, 9/10⟩]
  getProducts := fun ids =>
    .ok (ids.filterMap (fun i => if i = 7 then some ⟨7, "seven"⟩ else none))
  hotTry := .ok [⟨900, "hot"⟩]
  hotHandler := .ok [⟨900, "hot"⟩]

/-- A run that raises during signal gathering, with non-empty hot products
available to the exception handler. -/
def envC2x : Env where
  minBehaviorCount := 3
  minDistance := 45/100
  cachedVector := none
  interests := .error ()
  groupedBehaviors := .ok []
  searchKeywords := []
  purchased := []
  embedQuery := fun _ => .ok [1]
  milvusQuery := fun _ => .ok []
  milvusSearch := fun _ => .ok []
  getProducts := fun _ => .ok []
  hotTry := .ok [⟨901, "hot2"⟩]
  hotHandler := .ok [⟨901, "hot2"⟩]

/-- The same run as `envC2x` but with no exception: all signals fetch
successfully and are insufficient, so the genuine ColdStart path runs. -/
def envC2cold : Env where
  minBehaviorCount := 3
  minDistance := 45/100
  cachedVector := none
  interests := .ok []
  groupedBehaviors := .ok []
  searchKeywords := []
  purchased := []
  embedQuery := fun _ => .ok [1]
  milvusQuery := fun _ => .ok []
  milvusSearch := fun _ => .ok []
  getProducts := fun _ => .ok []
  hotTry := .ok [⟨901, "hot2"⟩]
  hotHandler := .ok [⟨901, "hot2"⟩]

/-- A store whose only hit for product 5 is below the similarity floor. -/
def envC5x : Env where
  minBehaviorCount := 3
  minDistance := 1
  cachedVector := none
  interests := .ok []
  groupedBehaviors := .ok []
  searchKeywords := []
  purchased := []
  embedQuery := fun _ => .ok [1]
  milvusQuery := fun _ => .ok [(3, [1])]
  milvusSearch := fun _ => .ok [⟨some 5, 0⟩, ⟨some 7, 2⟩]
  getProducts := fun ids =>
    .ok (ids.filterMap (fun i => if i = 7 then some ⟨7, "seven"⟩ else none))
  hotTry := .ok []
  hotHandler := .ok []

/-- A keyword search with three ranked hits, one below the floor. -/
def envC6x : Env where
  minBehaviorCount := 3
  minDistance := 1
  cachedVector := none
  interests := .ok []
  groupedBehaviors := .ok []
  searchKeywords := []
  purchased := []
  embedQuery := fun _ => .ok [1]
  milvusQuery := fun _ => .ok []
  milvusSearch := fun _ => .ok [⟨some 7, 2⟩, ⟨some 9, 1⟩, ⟨some 8, 0⟩]
  getProducts := fun ids =>
    .ok (ids.filterMap (fun i =>
      if i = 9 then some ⟨9, "nine"⟩ else if i = 7 then some ⟨7, "seven"⟩ else none))
  hotTry := .ok []
  hotHandler := .ok []

/-- A user with no cached vector, no interests, no behaviors and no search
keywords, with hot products available. -/
def envC7x : Env where
  minBehaviorCount := 3
  minDistance := 45/100
  cachedVector := none
  interests := .ok []
  groupedBehaviors := .ok []
  searchKeywords := []
  purchased := []
  embedQuery := fun _ => .ok [1]
  milvusQuery := fun _ => .ok []
  milvusSearch := fun _ => .ok []
  getProducts := fun _ => .ok []
  hotTry := .ok [⟨900, "hot"⟩]
  hotHandler := .ok [⟨900, "hot"⟩]

/-- A cached-vector run where the top hit is a purchased product. -/
def envC8x : Env where
  minBehaviorCount := 3
  minDistance := 45/100
  cachedVector := some [1]
  interests := .ok []
  groupedBehaviors := .ok []
  searchKeywords := []
  purchased := [5]
  embedQuery := fun _ => .ok [1]
  milvusQuery := fun _ => .ok []
  milvusSearch := fun _ => .ok [⟨some 5, 9/10⟩, ⟨some 7, 8/10⟩]
  getProducts := fun ids =>
    .ok (ids.filterMap (fun i => if i = 7 then some ⟨7, "seven"⟩ else none))
  hotTry := .ok []
  hotHandler := .ok []

/-- A cached-vector run whose retrieval resolves to a catalog record. -/
def envC9x : Env where
  minBehaviorCount := 3
  minDistance := 45/100
  cachedVector := some [1]
  interests := .ok []
  groupedBehaviors := .ok []
  searchKeywords := []
  purchased := []
  embedQuery := fun _ => .ok [1]
  milvusQuery := fun _ => .ok []
  milvusSearch := fun _ => .ok [⟨some 7, 9/10⟩]
  getProducts := fun ids =>
    .ok (ids.filterMap (fun i => if i = 7 then some ⟨7, "seven"⟩ else none))
  hotTry := .ok []
  hotHandler := .ok []

/-- A store returning a single hit whose similarity 0 is far below 0.45. -/
def envC10x : Env where
  minBehaviorCount := 3
  minDistance := 45/100
  cachedVector := none
  interests := .ok []
  groupedBehaviors := .ok []
  searchKeywords := []
  purchased := []
  embedQuery := fun _ => .ok [1]
  milvusQuery := fun _ => .ok []
  milvusSearch := fun _ => .ok [⟨some 9, 0⟩]
  getProducts := fun _ => .ok []
  hotTry := .ok []
  hotHandler := .ok []

/-! ## Supporting lemmas -/

theorem mem_dedupFirstAux {α : Type} [DecidableEq α] (a : α) :
    ∀ (l seen : List α), a ∈ dedupFirstAux seen l ↔ a ∈ l ∧ a ∉ seen := by
  intro l
  induction l with
  | nil => intro seen; simp [dedupFirstAux]
  | cons b bs ih =>
    intro seen
    by_cases hb : b ∈ seen
    · simp only [dedupFirstAux, if_pos hb, ih, List.mem_cons]
      by_cases hab : a = b <;> simp [hab, hb]
    · simp only [dedupFirstAux, if_neg hb, List.mem_cons, ih]
      by_cases hab : a = b <;> simp [hab, hb]

theorem dedupFirstAux_sublist {α : Type} [DecidableEq α] :
    ∀ (l seen : List α), List.Sublist (dedupFirstAux seen l) l := by
  intro l
  induction l with
  | nil => intro seen; simp [dedupFirstAux]
  | cons b bs ih =>
    intro seen
    by_cases hb : b ∈ seen
    · simpa [dedupFirstAux, if_pos hb] using (ih seen).trans (List.sublist_cons_self b bs)
    · simpa [dedupFirstAux, if_neg hb] using (ih (b :: seen)).cons₂ b

theorem nodup_dedupFirstAux {α : Type} [DecidableEq α] :
    ∀ (l seen : List α), (dedupFirstAux seen l).Nodup := by
  intro l
  induction l with
  | nil => intro seen; simp [dedupFirstAux]
  | cons b bs ih =>
    intro seen
    by_cases hb : b ∈ seen
    · simpa [dedupFirstAux, if_pos hb] using ih seen
    · simp only [dedupFirstAux, if_neg hb, List.nodup_cons]
      refine ⟨fun hmem => ?_, ih (b :: seen)⟩
      exact ((mem_dedupFirstAux b bs (b :: seen)).mp hmem).2 (List.mem_cons_self b seen)

theorem idToProduct_id_eq {products : List Product} {pid : Int} {p : Product}
    (h : idToProduct products pid = some p) : p.id_int = pid := by
  have := List.find?_some h
  simpa using this

theorem mem_of_mem_filterMap_idToProduct {products : List Product} {l : List Int} {p : Product}
    (h : p ∈ l.filterMap (idToProduct products)) : p.id_int ∈ l := by
  rcases List.mem_filterMap.mp h with ⟨pid, hmem, hfind⟩
  exact (idToProduct_id_eq hfind) ▸ hmem

theorem not_mem_filterPurchased {purchased candidates : List Int} {limit : Nat} {pid : Int}
    (hp : pid ∈ purchased) : pid ∉ filterPurchased purchased candidates limit := by
  intro hmem
  have hne : purchased ≠ [] := List.ne_nil_of_mem hp
  rw [filterPurchased, if_pos hne] at hmem
  have hmem' := List.take_subset _ _ hmem
  have h2 := (List.mem_filter.mp hmem').2
  simp at h2
  exact h2 hp

theorem base_le_foldl_max : ∀ (ws : List ℚ) (w : ℚ), w ≤ ws.foldl max w := by
  intro ws
  induction ws with
  | nil => intro w; simp
  | cons u us ih => intro w; exact le_trans (le_max_left w u) (ih (max w u))

theorem le_foldl_max_of_mem : ∀ (ws : List ℚ) (w x : ℚ), x ∈ ws → x ≤ ws.foldl max w := by
  intro ws
  induction ws with
  | nil => intro w x hx; simp at hx
  | cons u us ih =>
    intro w x hx
    rcases List.mem_cons.mp hx with rfl | hx
    · exact le_trans (le_max_right w x) (base_le_foldl_max us (max w x))
    · exact ih (max w u) x hx

theorem foldl_max_mem : ∀ (ws : List ℚ) (w : ℚ), ws.foldl max w = w ∨ ws.foldl max w ∈ ws := by
  intro ws
  induction ws with
  | nil => intro w; exact Or.inl rfl
  | cons u us ih =>
    intro w
    rcases ih (max w u) with h | h
    · rcases max_choice w u with hc | hc
      · exact Or.inl (by rw [List.foldl_cons, h, hc])
      · exact Or.inr (by rw [List.foldl_cons, h, hc]; exact List.mem_cons_self u us)
    · exact Or.inr (List.mem_cons_of_mem u h)

theorem listMax_mem : ∀ {l : List ℚ}, l ≠ [] → listMax l ∈ l := by
  intro l h
  match l with
  | [] => exact absurd rfl h
  | w :: ws =>
    show ws.foldl max w ∈ w :: ws
    rcases foldl_max_mem ws w with h1 | h1
    · rw [h1]; exact List.mem_cons_self w ws
    · exact List.mem_cons_of_mem w h1

theorem le_listMax : ∀ {l : List ℚ} {x : ℚ}, x ∈ l → x ≤ listMax l := by
  intro l x h
  match l with
  | [] => simp at h
  | w :: ws =>
    show x ≤ ws.foldl max w
    rcases List.mem_cons.mp h with rfl | h1
    · exact base_le_foldl_max ws x
    · exact le_foldl_max_of_mem ws w x h1

theorem listMax_eq_listMax {l₁ l₂ : List ℚ} (h : ∀ x, x ∈ l₁ ↔ x ∈ l₂) (h₁ : l₁ ≠ []) :
    listMax l₁ = listMax l₂ := by
  have h₂ : l₂ ≠ [] := List.ne_nil_of_mem ((h _).mp (listMax_mem h₁))
  exact le_antisymm (le_listMax ((h _).mp (listMax_mem h₁)))
    (le_listMax ((h _).mpr (listMax_mem h₂)))

theorem touches_iff {gb : GroupedBehaviors} {bt : String} {p : Int} :
    touches gb bt p = true ↔ ∃ b ∈ lookupGB gb bt, targetPid b = some p := by
  simp [touches, List.any_eq_true]

theorem mem_productWeights {gb : GroupedBehaviors} {p : Int} {x : ℚ} :
    x ∈ productWeights gb p ↔
      ∃ bt ∈ BEHAVIOR_TYPE_SURPORTED, touches gb bt p = true ∧ behaviorWeight bt = x := by
  simp only [productWeights, behaviorPairs, List.mem_filterMap, List.mem_flatMap, List.mem_map,
    touches_iff]
  constructor
  · rintro ⟨a, ⟨bt, hbt, b, hb, heq⟩, hval⟩
    subst heq
    simp only at hval
    split_ifs at hval with ht
    exact ⟨bt, hbt, ⟨b, hb, ht⟩, Option.some.inj hval⟩
  · rintro ⟨bt, hbt, ⟨b, hb, ht⟩, hw⟩
    exact ⟨(bt, b), ⟨bt, hbt, b, hb, rfl⟩, by simp [ht, hw]⟩

theorem productWeights_ne_nil_iff {gb : GroupedBehaviors} {p : Int} :
    productWeights gb p ≠ [] ↔ ∃ bt ∈ BEHAVIOR_TYPE_SURPORTED, touches gb bt p = true := by
  constructor
  · intro h
    obtain ⟨x, hx⟩ := List.exists_mem_of_ne_nil _ h
    obtain ⟨bt, hbt, ht, _⟩ := mem_productWeights.mp hx
    exact ⟨bt, hbt, ht⟩
  · rintro ⟨bt, hbt, ht⟩
    exact List.ne_nil_of_mem (mem_productWeights.mpr ⟨bt, hbt, ht, rfl⟩)

theorem listMax_productWeights {gb : GroupedBehaviors} {p : Int}
    (h : productWeights gb p ≠ []) :
    listMax (productWeights gb p) = specMaxWeight gb p := by
  unfold specMaxWeight
  refine listMax_eq_listMax (fun x => ?_) h
  rw [mem_productWeights]
  simp only [List.mem_map, List.mem_filter]
  constructor
  · rintro ⟨bt, hbt, ht, hw⟩; exact ⟨bt, ⟨hbt, ht⟩, hw⟩
  · rintro ⟨bt, ⟨hbt, ht⟩, hw⟩; exact ⟨bt, hbt, ht, hw⟩

theorem contrib_pred_eq (gb : GroupedBehaviors) (p : Int) :
    (!(productWeights gb p).isEmpty)
      = (BEHAVIOR_TYPE_SURPORTED.any fun bt => touches gb bt p) := by
  by_cases h : productWeights gb p = []
  · have hno : ¬ ∃ bt ∈ BEHAVIOR_TYPE_SURPORTED, touches gb bt p = true := by
      intro hex; exact (productWeights_ne_nil_iff.mpr hex) h
    have : (BEHAVIOR_TYPE_SURPORTED.any fun bt => touches gb bt p) = false := by
      rw [← Bool.not_eq_true, List.any_eq_true]; exact hno
    rw [this, h]; rfl
  · have hex := productWeights_ne_nil_iff.mp h
    have h1 : (BEHAVIOR_TYPE_SURPORTED.any fun bt => touches gb bt p) = true :=
      List.any_eq_true.mpr hex
    rw [h1, List.isEmpty_eq_false_iff_exists_mem.mpr (List.exists_mem_of_ne_nil _ h)]
    rfl

theorem behaviorVectorOfRows_eq_spec (gb : GroupedBehaviors) (rows : List (Int × Vec)) :
    behaviorVectorOfRows gb rows = behaviorVectorSpec gb rows := by
  simp only [behaviorVectorOfRows, behaviorVectorSpec]
  rw [List.filter_congr (fun r _ => contrib_pred_eq gb r.1)]
  set F := (firstSeenRows rows).filter
    (fun r => BEHAVIOR_TYPE_SURPORTED.any fun bt => touches gb bt r.1) with hFdef
  have hmax : ∀ r ∈ F, listMax (productWeights gb r.1) = specMaxWeight gb r.1 := by
    intro r hr
    have hpred := (List.mem_filter.mp (hFdef ▸ hr)).2
    exact listMax_productWeights (productWeights_ne_nil_iff.mpr (List.any_eq_true.mp hpred))
  have hmap1 : F.map (fun r => smul (listMax (productWeights gb r.1)) r.2)
      = F.map (fun r => smul (specMaxWeight gb r.1) r.2) :=
    List.map_congr_left (fun r hr => by rw [hmax r hr])
  have hmap2 : F.map (fun r => listMax (productWeights gb r.1))
      = F.map (fun r => specMaxWeight gb r.1) :=
    List.map_congr_left (fun r hr => hmax r hr)
  rw [hmap1, hmap2]
  by_cases hF : F = []
  · simp [hF]
  · have hmapne : F.map (fun r => smul (specMaxWeight gb r.1) r.2) ≠ [] := by
      simpa using hF
    by_cases hS : (F.map (fun r => specMaxWeight gb r.1)).sum = 0
    · simp [hF, hS]
    · simp [hF, hS, hmapne]

theorem not_mem_floorDedupAux {md : ℚ} {pid : Int} :
    ∀ (hits : List Hit) (seen : List Int),
      (∀ a ∈ hits, hitPid a = some pid → a.distance < md) →
      pid ∉ floorDedupAux md seen hits := by
  intro hits
  induction hits with
  | nil => intro seen _; simp [floorDedupAux]
  | cons h0 hs ih =>
    intro seen hh
    unfold floorDedupAux
    cases hp : hitPid h0 with
    | none => exact ih seen (fun a ha => hh a (List.mem_cons_of_mem _ ha))
    | some q =>
      show pid ∉ (if md ≤ h0.distance ∧ q ∉ seen then q :: floorDedupAux md (q :: seen) hs
        else floorDedupAux md seen hs)
      by_cases hcond : md ≤ h0.distance ∧ q ∉ seen
      · rw [if_pos hcond]
        intro hmem
        rcases List.mem_cons.mp hmem with rfl | hmem2
        · exact absurd hcond.1 (not_le.mpr (hh h0 (List.mem_cons_self _ _) hp))
        · exact ih (q :: seen) (fun a ha => hh a (List.mem_cons_of_mem _ ha)) hmem2
      · rw [if_neg hcond]
        exact ih seen (fun a ha => hh a (List.mem_cons_of_mem _ ha))

theorem not_mem_collectSimilar {md : ℚ} {pid : Int} {limit : Nat} :
    ∀ (hits : List Hit) (seen acc : List Int),
      pid ∉ acc →
      (∀ a ∈ hits, hitPid a = some pid → a.distance < md) →
      pid ∉ collectSimilar md limit seen acc hits := by
  intro hits
  induction hits with
  | nil => intro seen acc hacc _; simpa [collectSimilar] using hacc
  | cons h0 hs ih =>
    intro seen acc hacc hh
    unfold collectSimilar
    cases hp : hitPid h0 with
    | none => exact ih seen acc hacc (fun a ha => hh a (List.mem_cons_of_mem _ ha))
    | some q =>
      show pid ∉ (if q ∉ seen ∧ md ≤ h0.distance then
          (if limit ≤ (acc ++ [q]).length then acc ++ [q]
           else collectSimilar md limit (q :: seen) (acc ++ [q]) hs)
        else collectSimilar md limit seen acc hs)
      by_cases hcond : q ∉ seen ∧ md ≤ h0.distance
      · have hq : pid ≠ q := by
          rintro rfl
          exact absurd hcond.2 (not_le.mpr (hh h0 (List.mem_cons_self _ _) hp))
        have hacc2 : pid ∉ acc ++ [q] := by simp [hacc, hq]
        rw [if_pos hcond]
        by_cases hlim : limit ≤ (acc ++ [q]).length
        · rw [if_pos hlim]; exact hacc2
        · rw [if_neg hlim]
          exact ih (q :: seen) (acc ++ [q]) hacc2 (fun a ha => hh a (List.mem_cons_of_mem _ ha))
      · rw [if_neg hcond]
        exact ih seen acc hacc (fun a ha => hh a (List.mem_cons_of_mem _ ha))

theorem not_mem_map_id_filterMap {prods : List Product} {l : List Int} {pid : Int}
    (h : pid ∉ l) : pid ∉ (l.filterMap (idToProduct prods)).map Product.id_int := by
  intro hmem
  rcases List.mem_map.mp hmem with ⟨p, hp, hid⟩
  exact h (hid ▸ mem_of_mem_filterMap_idToProduct hp)

theorem coldStart_trace (env : Env) (t : Trace) : (coldStart env t).2 = t := by
  unfold coldStart
  split
  · rfl
  · split <;> rfl

theorem coldStart_not_personalized (env : Env) (t t2 : Trace) (ps : List Product) :
    coldStart env t ≠ (.ok (ps, "personalized"), t2) := by
  unfold coldStart
  split
  · simp
  · split <;> simp

theorem personalizedRWC_excludes (env : Env) (a : Option GroupedBehaviors)
    (b : Option (List (String × String))) (c : Option (List String))
    (limit : Nat) (pid : Int) (hp : pid ∈ env.purchased) :
    pid ∉ (personalizedRecommendWithCache env a b c limit).map Product.id_int := by
  unfold personalizedRecommendWithCache
  cases hcv : computeUserVector env a b c with
  | none => simp only [hcv]; simp
  | some uv =>
    simp only [hcv]
    by_cases hcand : vectorSearch env uv (limit * 3) = []
    · rw [if_pos hcand]; simp
    · rw [if_neg hcand]
      by_cases hfil : filterPurchased env.purchased (vectorSearch env uv (limit * 3)) limit = []
      · rw [if_pos hfil]; simp
      · rw [if_neg hfil]
        cases hgp : env.getProducts
            (filterPurchased env.purchased (vectorSearch env uv (limit * 3)) limit) with
        | error e => simp only [hgp]; simp
        | ok prods =>
          simp only [hgp]
          exact not_mem_map_id_filterMap (not_mem_filterPurchased hp)

theorem fullFlow_personalized_excludes (env : Env) (limit : Nat) (pid : Int)
    (hp : pid ∈ env.purchased) :
    ∀ (ps : List Product) (t : Trace),
      recommendFullFlow env limit = (.ok (ps, "personalized"), t) →
      pid ∉ ps.map Product.id_int := by
  intro ps t heq
  unfold recommendFullFlow at heq
  cases hsg : signalGather env with
  | error e => rw [hsg] at heq; simp at heq
  | ok trip =>
    obtain ⟨i, g, k⟩ := trip
    rw [hsg] at heq
    simp only at heq
    by_cases hcond : i ≠ [] ∨ env.minBehaviorCount ≤ behaviorCount g ∨ k ≠ []
    · rw [if_pos hcond] at heq
      by_cases hprod : personalizedRecommendWithCache env
          (if env.minBehaviorCount ≤ behaviorCount g then some g else none)
          (if i ≠ [] then some i else none)
          (if k ≠ [] then some k else none) limit ≠ []
      · rw [if_pos hprod] at heq
        simp only [Prod.mk.injEq, Except.ok.injEq] at heq
        rw [← heq.1.1]
        exact personalizedRWC_excludes env _ _ _ limit pid hp
      · rw [if_neg hprod] at heq
        exact absurd heq (coldStart_not_personalized env _ _ _)
    · rw [if_neg hcond] at heq
      exact absurd heq (coldStart_not_personalized env _ _ _)

theorem recommendTry_personalized_excludes (env : Env) (limit : Nat) (pid : Int)
    (hp : pid ∈ env.purchased) :
    ∀ (ps : List Product) (t : Trace),
      recommendTry env limit = (.ok (ps, "personalized"), t) →
      pid ∉ ps.map Product.id_int := by
  intro ps t heq
  unfold recommendTry at heq
  cases hcv : env.cachedVector with
  | none =>
    rw [hcv] at heq
    exact fullFlow_personalized_excludes env limit pid hp ps t heq
  | some uv =>
    rw [hcv] at heq
    simp only at heq
    by_cases hfil : filterPurchased env.purchased (vectorSearch env uv (limit * 3)) limit ≠ []
    · rw [if_pos hfil] at heq
      cases hgp : env.getProducts
          (filterPurchased env.purchased (vectorSearch env uv (limit * 3)) limit) with
      | error e => rw [hgp] at heq; simp at heq
      | ok prods =>
        rw [hgp] at heq
        simp only at heq
        by_cases hsor : (filterPurchased env.purchased (vectorSearch env uv (limit * 3))
            limit).filterMap (idToProduct prods) ≠ []
        · rw [if_pos hsor] at heq
          simp only [Prod.mk.injEq, Except.ok.injEq] at heq
          rw [← heq.1.1]
          exact not_mem_map_id_filterMap (not_mem_filterPurchased hp)
        · rw [if_neg hsor] at heq
          exact fullFlow_personalized_excludes env limit pid hp ps t heq
    · rw [if_neg hfil] at heq
      exact fullFlow_personalized_excludes env limit pid hp ps t heq

theorem recommend_trace_pa (env : Env) (limit : Nat) :
    (recommend env limit).2.personalizationAttempted
      = (recommendTry env limit).2.personalizationAttempted := by
  unfold recommend
  rcases hrt : recommendTry env limit with ⟨e, t⟩
  cases e with
  | ok r => rfl
  | error e2 => cases env.hotHandler <;> rfl

theorem fullFlow_pa (env : Env) (limit : Nat) (gb : GroupedBehaviors)
    (i : List (String × String))
    (hi : env.interests = .ok i) (hg : env.groupedBehaviors = .ok gb) :
    ((recommendFullFlow env limit).2.personalizationAttempted = true ↔
      (i ≠ [] ∨ env.minBehaviorCount ≤ behaviorCount gb ∨ env.searchKeywords ≠ [])) := by
  have hgather : signalGather env = .ok (i, gb, env.searchKeywords) := by
    simp [signalGather, hi, hg]
  unfold recommendFullFlow
  rw [hgather]
  simp only
  by_cases hcond : i ≠ [] ∨ env.minBehaviorCount ≤ behaviorCount gb ∨ env.searchKeywords ≠ []
  · rw [if_pos hcond]
    by_cases hprod : personalizedRecommendWithCache env
        (if env.minBehaviorCount ≤ behaviorCount gb then some gb else none)
        (if i ≠ [] then some i else none)
        (if env.searchKeywords ≠ [] then some env.searchKeywords else none) limit ≠ []
    · rw [if_pos hprod]
      simpa using hcond
    · rw [if_neg hprod, coldStart_trace]
      simpa using hcond
  · rw [if_neg hcond, coldStart_trace]
    simpa using hcond

theorem recommendTry_hhc (env : Env) (limit : Nat) :
    (recommendTry env limit).2.hotHandlerCalls = 0 := by
  have hff : ∀ e2 l2, (recommendFullFlow e2 l2).2.hotHandlerCalls = 0 := by
    intro e2 l2
    unfold recommendFullFlow
    cases hsg : signalGather e2 with
    | error e => simp only [hsg]
    | ok trip =>
      obtain ⟨i, g, k⟩ := trip
      simp only [hsg]
      by_cases hcond : i ≠ [] ∨ e2.minBehaviorCount ≤ behaviorCount g ∨ k ≠ []
      · rw [if_pos hcond]
        by_cases hprod : personalizedRecommendWithCache e2
            (if e2.minBehaviorCount ≤ behaviorCount g then some g else none)
            (if i ≠ [] then some i else none)
            (if k ≠ [] then some k else none) l2 ≠ []
        · rw [if_pos hprod]
        · rw [if_neg hprod, coldStart_trace]
      · rw [if_neg hcond, coldStart_trace]
  unfold recommendTry
  split
  · exact hff env limit
  · simp only
    split
    · split
      · rfl
      · split
        · rfl
        · exact hff env limit
    · exact hff env limit

/-! ## Claim theorems -/

/-- C3: for every grouped-behavior map, the behavior vector is the weighted
average Σ(embedding·max_weight) / Σ(max_weight) over the distinct referenced
product ids whose embeddings are found, where each product's weight is the
**maximum** (not the sum) of the weights {purchase 3, add_cart 5/2, like 2,
share 3/2, view 1} over the behavior types that touched it; in particular a
product with both a view and a like behavior contributes with weight
max(1, 2) = 2. -/
theorem c3_behavior_vector_weighted_average :
    (∀ (env : Env) (gb : GroupedBehaviors),
        getUserVectorFromBehaviors env gb =
          (if allProductIds gb = [] then none
           else
             match env.milvusQuery (allProductIds gb) with
             | .error _ => none
             | .ok [] => none
             | .ok rows => behaviorVectorSpec gb rows))
    ∧ (∀ (gb : GroupedBehaviors) (rows : List (Int × Vec)),
        behaviorVectorOfRows gb rows = behaviorVectorSpec gb rows)
    ∧ specMaxWeight [("view", [(⟨some 7⟩ : Behavior)]), ("like", [(⟨some 7⟩ : Behavior)])] 7 = 2
    ∧ listMax (productWeights
        [("view", [(⟨some 7⟩ : Behavior)]), ("like", [(⟨some 7⟩ : Behavior)])] 7) = 2 := by
  refine ⟨?_, behaviorVectorOfRows_eq_spec, by decide, by decide⟩
  intro env gb
  unfold getUserVectorFromBehaviors
  split
  · rfl
  · split
    · rfl
    · rfl
    · exact behaviorVectorOfRows_eq_spec _ _

/-- C4: `_compute_user_vector` fuses the present sub-vectors as
base = behavior·(3/5) + interest·(2/5) when both exist, the existing one when
only one does; a present search vector is averaged with the base
(arithmetic mean), stands alone when only it exists, and the result is
absent when no sub-vector exists. -/
theorem c4_fusion_cases :
    (∀ (b i s : Vec),
        fuseVectors (some b) (some i) (some s)
            = some (vdiv (vadd (vadd (smul (3/5) b) (smul (2/5) i)) s) 2)
        ∧ fuseVectors (some b) (some i) none = some (vadd (smul (3/5) b) (smul (2/5) i))
        ∧ fuseVectors (some b) none (some s) = some (vdiv (vadd b s) 2)
        ∧ fuseVectors none (some i) (some s) = some (vdiv (vadd i s) 2)
        ∧ fuseVectors (some b) none none = some b
        ∧ fuseVectors none (some i) none = some i
        ∧ fuseVectors none none (some s) = some s)
    ∧ fuseVectors none none none = none
    ∧ (∀ (env : Env), computeUserVector env none none none = none) := by
  refine ⟨fun b i s => ⟨?_, ?_, rfl, rfl, rfl, rfl, rfl⟩, rfl, fun env => rfl⟩
  · norm_num [fuseVectors]
  · norm_num [fuseVectors]

/-- C10: the candidate list `_vector_search` produces for `recommend`
contains exactly the deduplicated truthy product ids of the hits the vector
store returns (within `top_k`), in first-seen order, and is invariant under
arbitrary reassignment of every hit's similarity: the recommend path never
compares a hit's similarity against the 0.45 floor, so hits below the floor
appear in personalized candidate lists. -/
theorem c10_vector_search_no_floor (env : Env) (v : Vec) (k : Nat)
    (hits : List Hit) (pid : Int) (f : Hit → ℚ)
    (h : env.milvusSearch v = .ok hits) :
    (vectorSearch env v k).Nodup
    ∧ List.Sublist (vectorSearch env v k) ((hits.take k).filterMap hitPid)
    ∧ (pid ∈ vectorSearch env v k ↔ pid ∈ (hits.take k).filterMap hitPid)
    ∧ vectorSearch
        { env with milvusSearch := fun w =>
            (env.milvusSearch w).map (List.map (fun a => { a with distance := f a })) } v k
      = vectorSearch env v k := by
  have hv : vectorSearch env v k = dedupFirst ((hits.take k).filterMap hitPid) := by
    simp [vectorSearch, h]
  have hg : hitPid ∘ (fun a : Hit => { a with distance := f a }) = hitPid := by
    funext a; cases a; rfl
  refine ⟨?_, ?_, ?_, ?_⟩
  · rw [hv]; exact nodup_dedupFirstAux _ _
  · rw [hv]; exact dedupFirstAux_sublist _ _
  · rw [hv]; unfold dedupFirst; rw [mem_dedupFirstAux]; simp
  · simp only [vectorSearch, h, Except.map]
    rw [← List.map_take, List.filterMap_map, hg]

/-- C5: a product id all of whose vector-store hits fall below the
similarity floor (`min_distance`) never appears in the output of
`search_products` or `get_similar_products`: such hits are excluded from
the candidate id list (and hence from the reported total) and from the page
data. -/
theorem c5_similarity_floor (env : Env) (keyword : String) (pn ps : Nat)
    (qpid : Int) (lim : Nat) (pid : Int)
    (h : ∀ (v : Vec) (hits : List Hit), env.milvusSearch v = .ok hits →
      ∀ a ∈ hits, hitPid a = some pid → a.distance < env.minDistance) :
    pid ∉ (searchProducts env keyword pn ps).data.map Product.id_int
    ∧ pid ∉ (getSimilarProducts env qpid lim).map Product.id_int := by
  constructor
  · unfold searchProducts
    cases hemb : env.embedQuery keyword with
    | error e => simp only [hemb]; simp
    | ok sv =>
      simp only [hemb]
      cases sv with
      | nil => simp
      | cons c cs =>
        cases hms : env.milvusSearch (c :: cs) with
        | error e => simp only [hms]; simp
        | ok hits =>
          simp only [hms]
          have hA : pid ∉ floorDedupAux env.minDistance [] (hits.take (pn * ps)) :=
            not_mem_floorDedupAux _ _
              (fun a ha hp => h (c :: cs) hits hms a (List.take_subset _ _ ha) hp)
          have hpage : pid ∉ ((floorDedupAux env.minDistance []
              (hits.take (pn * ps))).drop ((pn - 1) * ps)).take ps :=
            fun hmem => hA (List.drop_subset _ _ (List.take_subset _ _ hmem))
          by_cases hnil : ((floorDedupAux env.minDistance []
              (hits.take (pn * ps))).drop ((pn - 1) * ps)).take ps = []
          · rw [if_pos hnil]; simp
          · rw [if_neg hnil]
            cases hgp : env.getProducts (((floorDedupAux env.minDistance []
                (hits.take (pn * ps))).drop ((pn - 1) * ps)).take ps) with
            | error e => simp only [hgp]; simp
            | ok prods =>
              simp only [hgp]
              exact not_mem_map_id_filterMap hpage
  · unfold getSimilarProducts
    cases hq : env.milvusQuery [qpid] with
    | error e => simp only [hq]; simp
    | ok rows =>
      simp only [hq]
      cases rows with
      | nil => simp
      | cons r rs =>
        cases hms : env.milvusSearch r.2 with
        | error e => simp only [hms]; simp
        | ok hits =>
          simp only [hms]
          have hsim : pid ∉ collectSimilar env.minDistance lim [qpid] []
              (hits.take (lim + 10)) :=
            not_mem_collectSimilar _ _ _ (by simp)
              (fun a ha hp => h r.2 hits hms a (List.take_subset _ _ ha) hp)
          by_cases hnil : collectSimilar env.minDistance lim [qpid] []
              (hits.take (lim + 10)) = []
          · rw [if_pos hnil]; simp
          · rw [if_neg hnil]
            cases hgp : env.getProducts (collectSimilar env.minDistance lim [qpid] []
                (hits.take (lim + 10))) with
            | error e => simp only [hgp]; simp
            | ok prods =>
              simp only [hgp]
              exact not_mem_map_id_filterMap hsim

/-- C6: `search_products` requests `page_number * page_size` candidates from
the vector store, builds the ordered floor-passing deduplicated id list over
that horizon, returns as page data exactly the slice
`[(page_number-1)*page_size : page_number*page_size]` of that list joined to
catalog records in similarity order, and reports `total` as the length of
the whole list; an out-of-range page yields empty data with the same total,
page_number and page_size (the slice — and hence the filterMap — is then
empty). -/
theorem c6_search_pagination (env : Env) (keyword : String) (pn ps : Nat)
    (sv : Vec) (hits : List Hit) (prods : List Product)
    (hpn : 1 ≤ pn) (hps : 1 ≤ ps)
    (hemb : env.embedQuery keyword = .ok sv) (hsv : sv ≠ [])
    (hms : env.milvusSearch sv = .ok hits)
    (hgp : env.getProducts (((floorDedupAux env.minDistance []
        (hits.take (pn * ps))).drop ((pn - 1) * ps)).take ps) = .ok prods) :
    searchProducts env keyword pn ps =
      ⟨(((floorDedupAux env.minDistance [] (hits.take (pn * ps))).drop
            ((pn - 1) * ps)).take ps).filterMap (idToProduct prods),
        (floorDedupAux env.minDistance [] (hits.take (pn * ps))).length, pn, ps⟩ := by
  unfold searchProducts
  cases sv with
  | nil => exact absurd rfl hsv
  | cons c cs =>
    simp only [hemb, hms]
    by_cases hnil : ((floorDedupAux env.minDistance []
        (hits.take (pn * ps))).drop ((pn - 1) * ps)).take ps = []
    · rw [if_pos hnil, hnil]
      simp
    · rw [if_neg hnil]
      simp only [hgp]

/-- C7: with no cached vector and successfully fetched signals, a user with
empty interests, fewer than the configured minimum behaviors and no search
keywords skips the personalization attempt and gets the hot products with
strategy cold_start (fallback with an empty list when they are empty);
conversely, personalization is attempted iff at least one of the three
sufficiency conditions holds. -/
theorem c7_cold_start_iff_insufficient (env : Env) (limit : Nat)
    (gb : GroupedBehaviors) (i : List (String × String))
    (hc : env.cachedVector = none)
    (hi : env.interests = .ok i)
    (hg : env.groupedBehaviors = .ok gb) :
    (∀ hs, env.hotTry = .ok hs → i = [] →
      behaviorCount gb < env.minBehaviorCount → env.searchKeywords = [] →
      recommend env limit =
        ((if hs = [] then ([], "fallback") else (hs, "cold_start")), ⟨true, false, 0⟩))
    ∧ ((recommend env limit).2.personalizationAttempted = true ↔
        (i ≠ [] ∨ env.minBehaviorCount ≤ behaviorCount gb ∨ env.searchKeywords ≠ [])) := by
  have hgather : signalGather env = .ok (i, gb, env.searchKeywords) := by
    simp [signalGather, hi, hg]
  constructor
  · intro hs hhot hi0 hbc hkw
    have hcond : ¬(i ≠ [] ∨ env.minBehaviorCount ≤ behaviorCount gb ∨
        env.searchKeywords ≠ []) := by
      push_neg
      exact ⟨hi0, hbc, hkw⟩
    have htry : recommendTry env limit =
        (if hs = [] then ((.ok ([], "fallback") : Except Unit (List Product × String)),
            (⟨true, false, 0⟩ : Trace))
         else (.ok (hs, "cold_start"), ⟨true, false, 0⟩)) := by
      unfold recommendTry
      rw [hc]
      unfold recommendFullFlow
      rw [hgather]
      simp only
      rw [if_neg hcond]
      unfold coldStart
      simp only [hhot]
      by_cases hhs : hs = [] <;> simp [hhs]
    unfold recommend
    rw [htry]
    by_cases hhs : hs = [] <;> simp [hhs]
  · rw [recommend_trace_pa]
    unfold recommendTry
    rw [hc]
    exact fullFlow_pa env limit gb i hi hg

/-- C8: a product id in the purchased set returned by
`get_purchased_products` never appears in the product list of a
`personalized` outcome of `recommend`, on either the cached-vector branch or
the freshly fused branch. -/
theorem c8_purchased_excluded (env : Env) (limit : Nat) (pid : Int)
    (hp : pid ∈ env.purchased)
    (hper : (recommend env limit).1.2 = "personalized") :
    pid ∉ (recommend env limit).1.1.map Product.id_int := by
  unfold recommend at hper ⊢
  rcases hrt : recommendTry env limit with ⟨e, t⟩
  cases e with
  | ok r =>
    rcases r with ⟨ps, strat⟩
    rw [hrt] at hper
    simp only at hper
    subst hper
    exact recommendTry_personalized_excludes env limit pid hp ps t hrt
  | error e2 =>
    rw [hrt] at hper
    cases hhh : env.hotHandler with
    | ok hs =>
      rw [hhh] at hper
      simp only at hper
      exact absurd hper (by decide)
    | error e3 =>
      rw [hhh] at hper
      simp only at hper
      exact absurd hper (by decide)

/-- C9: when the cache lookup returns a vector and the retrieval over it
yields at least one non-purchased candidate that resolves to a catalog
record, `recommend` returns that ordered list with strategy personalized
and never invokes the signal fetches. -/
theorem c9_cached_vector_personalized (env : Env) (limit : Nat) (uv : Vec)
    (prods : List Product)
    (hc : env.cachedVector = some uv)
    (hfil : filterPurchased env.purchased (vectorSearch env uv (limit * 3)) limit ≠ [])
    (hgp : env.getProducts
        (filterPurchased env.purchased (vectorSearch env uv (limit * 3)) limit) = .ok prods)
    (hsor : (filterPurchased env.purchased (vectorSearch env uv (limit * 3))
        limit).filterMap (idToProduct prods) ≠ []) :
    recommend env limit =
      (((filterPurchased env.purchased (vectorSearch env uv (limit * 3))
          limit).filterMap (idToProduct prods), "personalized"), trace0)
    ∧ (recommend env limit).2.signalFetchInvoked = false := by
  have htry : recommendTry env limit =
      (.ok ((filterPurchased env.purchased (vectorSearch env uv (limit * 3))
          limit).filterMap (idToProduct prods), "personalized"), trace0) := by
    unfold recommendTry
    rw [hc]
    simp only
    rw [if_pos hfil, hgp]
    simp only
    rw [if_pos hsor]
  constructor
  · unfold recommend
    rw [htry]
  · unfold recommend
    rw [htry]
    rfl

/-- C1 counterexample: in `recommend`, a raised exception in the interests
fetch — with three behaviors and a search keyword available that would
otherwise personalize — aborts the whole gather: the other two signals are
never delivered to the sufficiency check (`personalizationAttempted =
false`) and the failure is re-raised into the top-level handler
(`hotHandlerCalls = 1`), producing the fallback result.  This refutes the
claim that such a failure degrades only its own signal. -/
theorem c1_counterexample_gather_aborts :
    recommend envC1x 10 = (([⟨900, "hot"⟩], "fallback"), ⟨true, false, 1⟩) := by
  decide

/-- C1 (amended): once `recommend` reaches the signal gather (no cached
vector) and any raising signal fetch fails, the exception propagates out of
`asyncio.gather` (called without per-task error isolation) to the top-level
handler: no signal reaches SufficiencyCheck, personalization is never
attempted, and the run degrades to the handler's hot-products fallback. -/
theorem c1_amended_gather_failure_propagates (env : Env) (limit : Nat)
    (hc : env.cachedVector = none)
    (hfail : env.interests = .error () ∨ env.groupedBehaviors = .error ()) :
    recommend env limit =
      ((match env.hotHandler with
        | .ok ps => (ps, "fallback")
        | .error _ => ([], "fallback")), ⟨true, false, 1⟩) := by
  have hsg : signalGather env = .error () := by
    rcases hfail with h | h
    · simp [signalGather, h]
    · unfold signalGather
      cases hi : env.interests with
      | error e => rfl
      | ok i => simp only [h]
  have htry : recommendTry env limit = (.error (), ⟨true, false, 0⟩) := by
    unfold recommendTry
    rw [hc]
    unfold recommendFullFlow
    rw [hsg]
  unfold recommend
  rw [htry]
  cases hhh : env.hotHandler with
  | ok ps => simp only [hhh]
  | error e => simp only [hhh]

/-- C1 amended-claim witness at the concrete environment `envC1x`. -/
theorem c1_amended_witness :
    envC1x.cachedVector = none ∧ envC1x.interests = .error ()
    ∧ recommend envC1x 10 = (([⟨900, "hot"⟩], "fallback"), ⟨true, false, 1⟩) :=
  ⟨rfl, rfl,
    (c1_amended_gather_failure_propagates envC1x 10 rfl (Or.inl rfl)).trans rfl⟩

/-- C2 counterexample: when a stage raises and the handler's hot-products
fetch returns a non-empty list, `recommend` tags it "fallback", whereas the
genuine ColdStart path tags the same non-empty list "cold_start" — the
exception path is therefore not treated identically to the ColdStart path
on the non-empty side. -/
theorem c2_counterexample_fallback_tag :
    (recommend envC2x 10).1 = ([⟨901, "hot2"⟩], "fallback")
    ∧ (recommend envC2cold 10).1 = ([⟨901, "hot2"⟩], "cold_start")
    ∧ ("fallback" : String) ≠ "cold_start" := by
  refine ⟨by decide, by decide, by decide⟩

/-- C2 (amended): every exception raised inside `recommend`'s stages is
caught at the top level; the handler then attempts the hot-products fetch
exactly once and returns its result with strategy "fallback" even when
non-empty (not the cold_start outcome), and an empty list with strategy
"fallback" when that attempt raises or returns empty; `recommend` never
propagates an exception. -/
theorem c2_amended_fallback_on_exception (env : Env) (limit : Nat)
    (h : (recommendTry env limit).1 = .error ()) :
    (recommend env limit).1 =
      (match env.hotHandler with
       | .ok ps => (ps, "fallback")
       | .error _ => ([], "fallback"))
    ∧ (recommend env limit).2.hotHandlerCalls = 1 := by
  have ht0 := recommendTry_hhc env limit
  unfold recommend
  rcases hrt : recommendTry env limit with ⟨e, t⟩
  rw [hrt] at h ht0
  simp only at h ht0
  subst h
  cases hhh : env.hotHandler with
  | ok ps =>
    simp only [hhh]
    exact ⟨trivial, by simp [ht0]⟩
  | error e2 =>
    simp only [hhh]
    exact ⟨trivial, by simp [ht0]⟩

/-- C2 amended-claim witness at the concrete environment `envC2x`. -/
theorem c2_amended_witness :
    (recommendTry envC2x 10).1 = .error ()
    ∧ (recommend envC2x 10).1 = ([⟨901, "hot2"⟩], "fallback")
    ∧ (recommend envC2x 10).2.hotHandlerCalls = 1 := by
  have h := c2_amended_fallback_on_exception envC2x 10 rfl
  exact ⟨rfl, h.1.trans rfl, h.2⟩

/-- C5 witness: in `envC5x` every hit for product 5 is below the floor, and
5 appears in neither output. -/
theorem c5_witness :
    (5 : Int) ∉ (searchProducts envC5x "kw" 1 5).data.map Product.id_int
    ∧ (5 : Int) ∉ (getSimilarProducts envC5x 3 5).map Product.id_int :=
  c5_similarity_floor envC5x "kw" 1 5 3 5 5 (by
    intro v hits hh
    injection hh with h2
    subst h2
    decide)

/-- C6 witness: page 2 of size 1 over three ranked hits (one below the
floor) returns the second floor-passer with total 2. -/
theorem c6_witness :
    searchProducts envC6x "kw" 2 1 = ⟨[⟨9, "nine"⟩], 2, 2, 1⟩ :=
  (c6_search_pagination envC6x "kw" 2 1 [1]
      [⟨some 7, 2⟩, ⟨some 9, 1⟩, ⟨some 8, 0⟩] [⟨9, "nine"⟩]
      (by decide) (by decide) rfl (by decide) rfl rfl).trans (by decide)

/-- C7 witness: the all-signals-insufficient user of `envC7x` gets the hot
products as cold_start without a personalization attempt. -/
theorem c7_witness :
    envC7x.cachedVector = none
    ∧ recommend envC7x 10 = (([⟨900, "hot"⟩], "cold_start"), ⟨true, false, 0⟩)
    ∧ ((recommend envC7x 10).2.personalizationAttempted = true ↔
        (([] : List (String × String)) ≠ [] ∨
          envC7x.minBehaviorCount ≤ behaviorCount [] ∨ envC7x.searchKeywords ≠ [])) := by
  have h := c7_cold_start_iff_insufficient envC7x 10 [] [] rfl rfl rfl
  exact ⟨rfl, (h.1 [⟨900, "hot"⟩] rfl rfl (by decide) rfl).trans (by decide), h.2⟩

/-- C8 witness: purchased product 5 is the top hit of `envC8x` yet absent
from the personalized output. -/
theorem c8_witness :
    (5 : Int) ∈ envC8x.purchased
    ∧ (recommend envC8x 10).1.2 = "personalized"
    ∧ (5 : Int) ∉ (recommend envC8x 10).1.1.map Product.id_int :=
  ⟨by decide, by decide, c8_purchased_excluded envC8x 10 5 (by decide) (by decide)⟩

/-- C9 witness: the cached vector of `envC9x` serves a personalized result
without invoking the signal fetches. -/
theorem c9_witness :
    envC9x.cachedVector = some [1]
    ∧ recommend envC9x 10 = (([⟨7, "seven"⟩], "personalized"), trace0)
    ∧ (recommend envC9x 10).2.signalFetchInvoked = false := by
  have h := c9_cached_vector_personalized envC9x 10 [1] [⟨7, "seven"⟩] rfl
    (by decide) rfl (by decide)
  exact ⟨rfl, h.1.trans (by decide), h.2⟩

/-- C10 witness: a hit with similarity 0 — far below the 0.45 floor — still
appears among the recommend-path candidates. -/
theorem c10_witness :
    envC10x.milvusSearch [1] = .ok [⟨some 9, 0⟩]
    ∧ (9 : Int) ∈ vectorSearch envC10x [1] 5 :=
  ⟨rfl, ((c10_vector_search_no_floor envC10x [1] 5 [⟨some 9, 0⟩] 9
      (fun _ => 1/2) rfl).2.2.1).mpr (by decide)⟩

end ShopMind
